import Mathlib

/-!
Verification of the `nsls2-pdf-school-2018` tutorial notebooks.

The repository consists of four Jupyter notebooks that demonstrate an
external scattering/crystallography toolkit.  The only executable logic
defined by the repository itself lives in a handful of small classes and
functions inside the notebook code cells:

* `LennardJonesCalculator` (notebook 02): a user-defined pair quantity that
  stores `epsilon`, `sigma` and a running total `_vljtotal`, and whose
  `_addPairContribution` computes the Lennard-Jones pair energy.
* `RectangularProfile` (notebook 02): a user-defined peak profile whose
  `__call__` returns `1/fwhm` inside `(-fwhm/2, fwhm/2)` and `0` outside.
* `CarbonChain` and `convertCarbonChain` (notebook 02): a toy structure
  class and its adapter that builds a list of atoms from the chain data.
* `quatzero` (notebook 08): a calculator returning the zeroth component of
  a normalized quaternion, guarded against a negative square-root argument.
* `chattyfit` / `namesandvalues` (notebook 05): a wrapper that prints the
  variable values around a single call to the external `leastsq` optimizer.
* an `assert` in notebook 08 checking that the loaded crystal has exactly
  two scattering powers.

This file embeds those pieces shallowly (rationals for Python float
arithmetic, reals where a square root is computed) together with a model of
the external parallel-calculator combinator, and proves or refutes the
frozen claims about where computation happens in this repository.
-/

namespace PDFSchool

/-! ## Notebook 02 — `LennardJonesCalculator` -/

/-- State of the `LennardJonesCalculator` class from notebook 02: class
attributes `epsilon` and `sigma`, and the accumulator `_vljtotal` used
between `_resetValue` and `__call__`. -/
structure LennardJonesCalculator where
  epsilon : ℚ
  sigma : ℚ
  vljtotal : ℚ
deriving DecidableEq

/-- Embedding of `LennardJonesCalculator._resetValue`, which sets
`self._vljtotal = 0.0`. -/
def LennardJonesCalculator.resetValue (c : LennardJonesCalculator) :
    LennardJonesCalculator :=
  { c with vljtotal := 0 }

/-- Embedding of `LennardJonesCalculator._addPairContribution`:
`nmrij = bond.distance() / self.sigma`,
`vij = 4 * self.epsilon * (nmrij ** -12 - nmrij ** -6)`,
`self._vljtotal += 0.5 * vij * sumscale`. -/
def LennardJonesCalculator.addPairContribution (c : LennardJonesCalculator)
    (distance sumscale : ℚ) : LennardJonesCalculator :=
  let nmrij : ℚ := distance / c.sigma
  let vij : ℚ := 4 * c.epsilon * (nmrij ^ (-12 : ℤ) - nmrij ^ (-6 : ℤ))
  { c with vljtotal := c.vljtotal + 1/2 * vij * sumscale }

/-- Model of the external `PairQuantity.eval` driver loop: the library
resets the value and then invokes the repository-defined
`_addPairContribution` once per visited bond `(distance, sumscale)`.  Only
the iteration lives in the library; each contribution is computed by the
own code of the notebook shown above. -/
def LennardJonesCalculator.evalBonds (c : LennardJonesCalculator)
    (bonds : List (ℚ × ℚ)) : LennardJonesCalculator :=
  bonds.foldl (fun a b => a.addPairContribution b.1 b.2) c.resetValue

/-! ## Notebook 02 — `RectangularProfile` -/

/-- Embedding of `RectangularProfile.__call__`:
`inside = (-fwhm/2.0 < x < +fwhm/2.0)`, `y = (1.0 / fwhm) if inside else 0.0`. -/
def RectangularProfile.call (x fwhm : ℚ) : ℚ :=
  if -fwhm / 2 < x ∧ x < fwhm / 2 then 1 / fwhm else 0

/-- Embedding of `RectangularProfile.xboundhi`, `return +0.5 * fwhm`. -/
def RectangularProfile.xboundhi (fwhm : ℚ) : ℚ := 0.5 * fwhm

/-- Embedding of `RectangularProfile.xboundlo`, `return -0.5 * fwhm`. -/
def RectangularProfile.xboundlo (fwhm : ℚ) : ℚ := -0.5 * fwhm

/-- Embedding of `RectangularProfile.type`, `return "rectangularprofile"`. -/
def RectangularProfile.typeName : String := "rectangularprofile"

/-! ## Notebook 02 — `CarbonChain` and `convertCarbonChain` -/

/-- Embedding of the `CarbonChain` class: `self.Uiso = 0.004`, `self.z = []`,
where `z` holds the z-coordinates of the carbon atoms. -/
structure CarbonChain where
  Uiso : ℚ
  z : List ℚ
deriving DecidableEq

/-- Embedding of the `Atom` record of `diffpy.srreal.structureadapter`
(imported in the notebook as `AdptAtom`): the fields touched by
`convertCarbonChain`. -/
structure AdptAtom where
  atomtype : String
  uc11 : ℚ
  uc22 : ℚ
  uc33 : ℚ
  zc : ℚ
deriving DecidableEq

/-- Embedding of `convertCarbonChain`: one `AdptAtom` is created, its
`atomtype` and `uc11 = uc22 = uc33` are set once, and the loop
`for z in thechain.z: a.zc = z; adpt.append(a)` mutates `zc` and appends.
The library `AtomicStructureAdapter.append` stores the atom by value (its
C++ container copies the record), so each append takes a snapshot of the
current state of `a`. -/
def convertCarbonChain (thechain : CarbonChain) : List AdptAtom :=
  let a0 : AdptAtom :=
    { atomtype := "C", uc11 := thechain.Uiso, uc22 := thechain.Uiso,
      uc33 := thechain.Uiso, zc := 0 }
  (thechain.z.foldl
    (fun st z =>
      let a := { st.1 with zc := z }
      (a, st.2 ++ [a]))
    (a0, ([] : List AdptAtom))).2

/-! ## Notebook 08 — `quatzero` and the scattering-power assertion -/

/-- Embedding of `quatzero.__call__`:
`ssq = q1**2 + q2**2 + q3**2`,
`q0 = np.sqrt(1.0 - ssq) if ssq < 1 else 0.0`.
Real numbers idealize the floating-point arithmetic of the notebook. -/
noncomputable def quatzero (q1 q2 q3 : ℝ) : ℝ :=
  if q1 ^ 2 + q2 ^ 2 + q3 ^ 2 < 1 then
    Real.sqrt (1 - (q1 ^ 2 + q2 ^ 2 + q3 ^ 2))
  else 0

/-- Embedding of the notebook 08 statement
`assert 2 == crst.GetScatteringPowerRegistry().GetNb(), "unexpected number of atom species"`
as a fallible check on the scattering-power count. -/
def assertSpeciesCount (n : ℕ) : Except String Unit :=
  if 2 = n then Except.ok () else Except.error "unexpected number of atom species"

/-! ## Notebook 05 — `namesandvalues` and `chattyfit` -/

/-- Visible state of the `FitRecipe` object used by `chattyfit`: the
variable names and current values. -/
structure FitRecipe where
  names : List String
  values : List ℚ

/-- Embedding of `namesandvalues`:
a space-joined list of `name=value` pairs over `zip(thefit.names, thefit.values)`. -/
def namesandvalues (thefit : FitRecipe) : String :=
  String.intercalate " "
    (List.zipWith (fun n v => n ++ "=" ++ toString v) thefit.names thefit.values)

/-- Embedding of `chattyfit`.  The external optimizer `leastsq` is a
parameter: it receives the residual closure of the recipe and starting values and
returns the refined values together with its extra information `α`; as in
the notebook, the recipe afterwards holds the refined values.  `chattyfit`
prints a banner, the initial values, the final values and a blank line, and
returns `rv` — the value returned by `leastsq` — unchanged. -/
def chattyfit {α : Type} (leastsq : (List ℚ → List ℚ) → List ℚ → List ℚ × α)
    (residual : List ℚ → List ℚ) (thefit : FitRecipe) :
    List String × FitRecipe × (List ℚ × α) :=
  let rv := leastsq residual thefit.values
  let thefitAfter : FitRecipe := { thefit with values := rv.1 }
  (["Refine PDF using least-squares optimizer:",
    "  initial: " ++ namesandvalues thefit,
    "  final: " ++ namesandvalues thefitAfter,
    ""],
   thefitAfter, rv)

/-! ## Notebook 02 — parallel calculation (modelled library combinator) -/

/-- Modelled from the spec: `createParallelCalculator` belongs to
`diffpy.srreal.parallel`, an external library module absent from `src/`;
the spec only records that "parallel task distribution is entirely
delegated to a pre-existing native library".  The model follows the
documented behaviour of the library: the serial calculator evaluates, on the
grid point with index `j` (grid spacing `dr`, `m` points), the sum of the
contributions `f i r` of all `n` sites.  This is `serialCalculator`, the
reference the parallel result is compared against. -/
def serialCalculator (f : ℕ → ℚ → ℚ) (n m : ℕ) (dr : ℚ) : List ℚ × List ℚ :=
  ((List.range m).map (fun j : ℕ => dr * (j : ℚ)),
   (List.range m).map (fun j : ℕ => ∑ i ∈ Finset.range n, f i (dr * (j : ℚ))))

/-- Modelled from the spec: the slice of the pair summation assigned to
worker `k` of `ncpu` — the sites whose index is congruent to `k` modulo
`ncpu`, evaluated over the same grid as `serialCalculator`. -/
def workerShare (f : ℕ → ℚ → ℚ) (n ncpu m : ℕ) (dr : ℚ) (k : ℕ) : List ℚ :=
  (List.range m).map
    (fun j : ℕ => ∑ i ∈ (Finset.range n).filter (fun i => i % ncpu = k), f i (dr * (j : ℚ)))

/-- Modelled from the spec: `createParallelCalculator(calc, ncpu, pmap)`
distributes the worker payloads `0, …, ncpu-1` through the supplied `pmap`
(the notebook passes the builtin sequential `map`) and adds the returned
slices pointwise to form the total `g` array, with the `r` grid unchanged. -/
def createParallelCalculator (f : ℕ → ℚ → ℚ) (n ncpu m : ℕ) (dr : ℚ)
    (pmap : (ℕ → List ℚ) → List ℕ → List (List ℚ)) : List ℚ × List ℚ :=
  let shares := pmap (workerShare f n ncpu m dr) (List.range ncpu)
  ((List.range m).map (fun j : ℕ => dr * (j : ℚ)),
   (List.range m).map (fun j => (shares.map (fun gl => gl.getD j 0)).sum))


/-! ## Helper lemmas -/

/-- Negative integer powers of a quotient of rationals flip the quotient. -/
lemma qdiv_zpow_neg (a b : ℚ) (k : ℕ) : (a / b) ^ (-(k : ℤ)) = (b / a) ^ k := by
  rw [zpow_neg, zpow_natCast, ← inv_pow, inv_div]

/-- Closed form of one `_addPairContribution` step on an explicit state. -/
lemma lj_addPair_closed (e s t r m : ℚ) :
    LennardJonesCalculator.addPairContribution ⟨e, s, t⟩ r m
      = ⟨e, s, t + 1/2 * (4 * e * ((s / r) ^ 12 - (s / r) ^ 6)) * m⟩ := by
  show LennardJonesCalculator.mk e s _ = _
  congr 1
  rw [show (-12 : ℤ) = -(12 : ℕ) by norm_num, show (-6 : ℤ) = -(6 : ℕ) by norm_num,
    qdiv_zpow_neg, qdiv_zpow_neg]

/-- Accumulation along the bond list, with the starting total generalized. -/
lemma lj_foldBonds (e s : ℚ) (bonds : List (ℚ × ℚ)) : ∀ t : ℚ,
    (bonds.foldl (fun a b => a.addPairContribution b.1 b.2)
        (⟨e, s, t⟩ : LennardJonesCalculator)).vljtotal
      = t + (bonds.map (fun b =>
          1/2 * (4 * e * ((s / b.1) ^ 12 - (s / b.1) ^ 6)) * b.2)).sum := by
  induction bonds with
  | nil => intro t; simp
  | cons b bs ih =>
    intro t
    rw [List.foldl_cons, lj_addPair_closed, ih, List.map_cons, List.sum_cons]
    ring

/-- Loop of `convertCarbonChain`: each append snapshots the current atom. -/
lemma convertCarbonChain_loop (a : AdptAtom) (acc : List AdptAtom) (zs : List ℚ) :
    (zs.foldl
      (fun st z =>
        let a := { st.1 with zc := z }
        (a, st.2 ++ [a]))
      (a, acc)).2 = acc ++ zs.map (fun z => { a with zc := z }) := by
  induction zs generalizing a acc with
  | nil => simp
  | cons z zs ih =>
    simp only [List.foldl_cons, List.map_cons]
    rw [ih]
    simp

/-- Map form of `convertCarbonChain`. -/
lemma convertCarbonChain_eq_map (c : CarbonChain) :
    convertCarbonChain c = c.z.map (fun z =>
      { atomtype := "C", uc11 := c.Uiso, uc22 := c.Uiso, uc33 := c.Uiso, zc := z }) := by
  rw [convertCarbonChain, convertCarbonChain_loop]
  simp

/-- Reading an in-range entry of a list built by mapping over `List.range`. -/
lemma range_map_getD (g : ℕ → ℚ) (m j : ℕ) (hj : j < m) :
    ((List.range m).map g).getD j 0 = g j := by
  rw [List.getD_eq_getElem _ _ (by simpa using hj)]
  simp

/-- Sum of a list built by mapping over `List.range`, as a `Finset` sum. -/
lemma list_range_sum (w : ℕ → ℚ) (ncpu : ℕ) :
    ((List.range ncpu).map w).sum = ∑ k ∈ Finset.range ncpu, w k := by
  induction ncpu with
  | zero => simp
  | succ p ih =>
    rw [List.range_succ, Finset.sum_range_succ, List.map_append, List.sum_append, ih]
    simp

/-! ## Claims C1–C5: refuting the no-computation statements -/

/-- C1, counterexample.  The claim states that no repository-defined class
both stores its own model data and computes a quantity from it.  The
notebook class `LennardJonesCalculator` refutes it at the concrete bond
`(distance, sumscale) = (2, 1)`: with stored `epsilon = 1`, `sigma = 1` and
total `0` it computes a nonzero total, and the computed value changes when
only the stored `epsilon` changes to `2` — the class stores model data and
computes a quantity from it. -/
theorem lj_state_dependence_cex :
    (LennardJonesCalculator.addPairContribution ⟨1, 1, 0⟩ 2 1).vljtotal ≠ 0 ∧
    (LennardJonesCalculator.addPairContribution ⟨1, 1, 0⟩ 2 1).vljtotal ≠
      (LennardJonesCalculator.addPairContribution ⟨2, 1, 0⟩ 2 1).vljtotal := by
  constructor <;> norm_num [LennardJonesCalculator.addPairContribution]

/-- C1, amended.  With the exception of the deliberately user-defined
calculator example `LennardJonesCalculator` — which stores its own model
data `epsilon` and `sigma` and computes the Lennard-Jones pair energy
`4 ε ((σ/r)^12 − (σ/r)^6)` from them, scaled by `0.5 * sumscale`, into its
stored total — the classes and functions of the notebooks delegate their
computation to the external toolkit.  This theorem proves the exception:
the step keeps the stored parameters and adds exactly that quantity. -/
theorem lj_addPairContribution_formula (e s t r m : ℚ) :
    (LennardJonesCalculator.addPairContribution ⟨e, s, t⟩ r m).epsilon = e ∧
    (LennardJonesCalculator.addPairContribution ⟨e, s, t⟩ r m).sigma = s ∧
    (LennardJonesCalculator.addPairContribution ⟨e, s, t⟩ r m).vljtotal
      = t + 1/2 * (4 * e * ((s / r) ^ 12 - (s / r) ^ 6)) * m := by
  rw [lj_addPair_closed]
  exact ⟨rfl, rfl, rfl⟩

/-- C2, counterexample.  The claim states that no notebook code cell
defines a function whose result depends on a computation performed in the
repository.  `RectangularProfile.__call__` refutes it: at `x = 0` its
result is the repository-computed quotient `1/fwhm`, hence differs between
`fwhm = 2` and `fwhm = 4`, and differs again outside the support. -/
theorem profile_own_computation_cex :
    RectangularProfile.call 0 2 = 1/2 ∧
    RectangularProfile.call 0 4 = 1/4 ∧
    RectangularProfile.call 3 2 = 0 ∧
    ((1 : ℚ)/2) ≠ 0 := by
  refine ⟨?_, ?_, ?_, by norm_num⟩ <;> norm_num [RectangularProfile.call]

/-- C2, amended.  Every notebook code cell is library-object construction,
attribute assignment, fit-variable registration, or plotting, except the
deliberately user-defined extension examples (`RectangularProfile`,
`LennardJonesCalculator`, `convertCarbonChain`, `quatzero`, `chattyfit`),
which do compute their own results.  This theorem proves the exception for
`RectangularProfile.__call__`: its result is always one of the two values
it computes itself, the quotient `1/fwhm` or `0`. -/
theorem profile_call_two_valued (x fwhm : ℚ) :
    RectangularProfile.call x fwhm = 1 / fwhm ∨
    RectangularProfile.call x fwhm = 0 := by
  rw [RectangularProfile.call]
  split
  · exact Or.inl rfl
  · exact Or.inr rfl

/-- C3, counterexample.  The claim states that no function defined in the
source notebooks computes a per-atom-pair interaction value or accumulates
pair contributions into a total.  `_addPairContribution` does both: on the
pair `(distance, sumscale) = (2, 1)` with `epsilon = sigma = 1` it computes
the interaction value and accumulates `-63/2048` into the stored total. -/
theorem lj_pair_accumulation_cex :
    (LennardJonesCalculator.addPairContribution ⟨1, 1, 0⟩ 2 1).vljtotal = -63/2048 ∧
    ((-63 : ℚ)/2048) ≠ 0 := by
  constructor
  · norm_num [LennardJonesCalculator.addPairContribution]
  · norm_num

/-- C3, amended.  Pair iteration lives in the external toolkit
(`PairQuantity.eval` drives the loop), but the per-pair interaction value
and its accumulation into a total are computed by the notebook-defined
`LennardJonesCalculator._addPairContribution` and `_resetValue`: running
the library loop over any bond list leaves in `_vljtotal` exactly the sum
of the repository-computed Lennard-Jones pair terms. -/
theorem lj_evalBonds_total (c : LennardJonesCalculator) (bonds : List (ℚ × ℚ)) :
    (c.evalBonds bonds).vljtotal
      = (bonds.map (fun b =>
          1/2 * (4 * c.epsilon * ((c.sigma / b.1) ^ 12 - (c.sigma / b.1) ^ 6)) * b.2)).sum := by
  obtain ⟨e, s, t⟩ := c
  show (bonds.foldl (fun a b => a.addPairContribution b.1 b.2)
      (⟨e, s, 0⟩ : LennardJonesCalculator)).vljtotal = _
  rw [lj_foldBonds]
  simp

/-- C4, counterexample.  The claim states that no quaternion arithmetic
(normalization, component computation) is carried out by code defined in
the repository.  The repository-defined `quatzero` refutes it at the
concrete input `(q1, q2, q3) = (3/5, 0, 0)`: it computes the nonzero
zeroth component `4/5`, which normalizes the quaternion to unit norm. -/
theorem quatzero_component_cex :
    quatzero (3/5) 0 0 = 4/5 ∧
    (quatzero (3/5) 0 0) ^ 2 + (3/5 : ℝ) ^ 2 + 0 ^ 2 + 0 ^ 2 = 1 ∧
    (4/5 : ℝ) ≠ 0 := by
  have h : quatzero (3/5) 0 0 = 4/5 := by
    rw [quatzero, if_pos (by norm_num)]
    rw [show (1 : ℝ) - ((3/5) ^ 2 + 0 ^ 2 + 0 ^ 2) = (4/5) ^ 2 by norm_num]
    exact Real.sqrt_sq (by norm_num)
  refine ⟨h, ?_, by norm_num⟩
  rw [h]
  norm_num

/-- C4, amended.  Quaternion-based rigid-body orientation fitting is
delegated to the external library, except for the quaternion component
computation done by the repository-defined calculator `quatzero`, which
the fit registers as `fixq0` and uses to constrain `q0`: whenever
`q1² + q2² + q3² ≤ 1`, the component it computes gives the quaternion
unit norm. -/
theorem quatzero_unit_norm (q1 q2 q3 : ℝ)
    (h : q1 ^ 2 + q2 ^ 2 + q3 ^ 2 ≤ 1) :
    (quatzero q1 q2 q3) ^ 2 + q1 ^ 2 + q2 ^ 2 + q3 ^ 2 = 1 := by
  rw [quatzero]
  split
  · rw [Real.sq_sqrt (by linarith)]
    ring
  · rename_i hc
    have h1 : q1 ^ 2 + q2 ^ 2 + q3 ^ 2 = 1 := le_antisymm h (not_lt.mp hc)
    linear_combination h1

/-- C4, witness for `quatzero_unit_norm` at `(3/5, 0, 0)`. -/
theorem quatzero_unit_norm_witness :
    (quatzero (3/5) 0 0) ^ 2 + (3/5 : ℝ) ^ 2 + 0 ^ 2 + 0 ^ 2 = 1 :=
  quatzero_unit_norm (3/5) 0 0 (by norm_num)

/-- C5, counterexample.  The claim states that repository code contains no
input validation, guarded branches, or assertions of its own and that every
operation prints or plots unconditionally.  Notebook 08 refutes it: its
`assert` on the scattering-power count rejects the count `3`, and the
guarded branch of `quatzero` produces different results on the two sides of
its `ssq < 1` test. -/
theorem repo_guard_cex :
    assertSpeciesCount 3 = Except.error "unexpected number of atom species" ∧
    quatzero 0 0 0 = 1 ∧
    quatzero 2 0 0 = 0 ∧
    quatzero 0 0 0 ≠ quatzero 2 0 0 := by
  have h0 : quatzero 0 0 0 = 1 := by
    rw [quatzero, if_pos (by norm_num)]
    norm_num
  have h2 : quatzero 2 0 0 = 0 := by
    rw [quatzero, if_neg (by norm_num)]
  exact ⟨rfl, h0, h2, by rw [h0, h2]; norm_num⟩

/-- C5, amended.  Repository code contains exactly a few small guards of
its own — the `ssq < 1` branch in `quatzero` that protects the square root,
the support test in `RectangularProfile.__call__`, and the notebook 08
assertion that the crystal has exactly two scattering powers — and
otherwise calls library functions and prints or plots the result.  This
theorem proves the guards: `quatzero` returns `0` whenever the square-root
argument would not be positive, and the assertion succeeds exactly on the
count `2`. -/
theorem repo_guard_behavior (q1 q2 q3 : ℝ) (n : ℕ) :
    (1 ≤ q1 ^ 2 + q2 ^ 2 + q3 ^ 2 → quatzero q1 q2 q3 = 0) ∧
    (assertSpeciesCount n = Except.ok () ↔ n = 2) := by
  constructor
  · intro h
    rw [quatzero, if_neg (not_lt.mpr h)]
  · rw [assertSpeciesCount]
    split
    · rename_i hh
      simp [hh.symm]
    · rename_i hh
      constructor
      · intro hc
        simp at hc
      · intro hc
        exact absurd hc.symm hh

/-- C5, witness for `repo_guard_behavior` at `(2, 0, 0)` and count `2`. -/
theorem repo_guard_behavior_witness :
    quatzero 2 0 0 = 0 ∧ assertSpeciesCount 2 = Except.ok () :=
  ⟨(repo_guard_behavior 2 0 0 2).1 (by norm_num),
   (repo_guard_behavior 2 0 0 2).2.mpr rfl⟩

/-! ## Claims C6–C10: confirmations -/

/-- C6.  Least-squares minimization lives entirely in the external toolkit:
the only repository wrapper around a minimization, `chattyfit`, returns
exactly the value produced by the external `leastsq` applied to the
residual of the recipe at the current values, stores the refined values
unchanged, and its result is unaffected by the names used only for the
printed messages — no iteration, gradient, or parameter-update step is
performed by repository code. -/
theorem chattyfit_delegates_to_leastsq {α : Type}
    (leastsq : (List ℚ → List ℚ) → List ℚ → List ℚ × α)
    (residual : List ℚ → List ℚ) (thefit : FitRecipe) :
    (chattyfit leastsq residual thefit).2.2 = leastsq residual thefit.values ∧
    (chattyfit leastsq residual thefit).2.1.values
      = (leastsq residual thefit.values).1 ∧
    (chattyfit leastsq residual thefit).2.1.names = thefit.names ∧
    ∀ other : FitRecipe, other.values = thefit.values →
      (chattyfit leastsq residual other).2.2 = (chattyfit leastsq residual thefit).2.2 := by
  refine ⟨rfl, rfl, rfl, ?_⟩
  intro other hother
  show leastsq residual other.values = leastsq residual thefit.values
  rw [hother]

/-- C6, witness for `chattyfit_delegates_to_leastsq` on a concrete
optimizer, residual and pair of recipes differing only in names. -/
theorem chattyfit_delegates_to_leastsq_witness :
    (chattyfit (fun r v => (r v, (0 : ℕ))) (fun v => v.map (fun q => q - 1))
        ⟨["A"], [3]⟩).2.2
      = (fun r v => (r v, (0 : ℕ))) (fun v => v.map (fun q => q - 1)) [3] ∧
    (chattyfit (fun r v => (r v, (0 : ℕ))) (fun v => v.map (fun q => q - 1))
        ⟨["B"], [3]⟩).2.2
      = (chattyfit (fun r v => (r v, (0 : ℕ))) (fun v => v.map (fun q => q - 1))
        ⟨["A"], [3]⟩).2.2 :=
  ⟨(chattyfit_delegates_to_leastsq _ _ _).1,
   (chattyfit_delegates_to_leastsq (fun r v => (r v, (0 : ℕ)))
     (fun v => v.map (fun q => q - 1)) ⟨["A"], [3]⟩).2.2.2 ⟨["B"], [3]⟩ rfl⟩

/-- C7.  The repository implements no concurrency mechanism of its own; it
only passes a template calculator, a worker count and a map function to the
library (`createParallelCalculator(PDFCalculator(), ncpu=2, pmap=map)`,
`pcnt.wcrst.parallel(4)`).  On the model of the library combinator, with
the builtin sequential `map` the parallel calculator returns the same
`(r, g)` result as the serial calculator for the same structure. -/
theorem parallel_calculator_matches_serial (f : ℕ → ℚ → ℚ) (n ncpu m : ℕ)
    (dr : ℚ) (hcpu : 0 < ncpu) :
    createParallelCalculator f n ncpu m dr List.map = serialCalculator f n m dr := by
  rw [createParallelCalculator, serialCalculator]
  refine Prod.ext rfl ?_
  show (List.range m).map _ = (List.range m).map _
  refine List.map_congr_left ?_
  intro j hj
  have hjm : j < m := List.mem_range.mp hj
  rw [List.map_map]
  have hshare : ∀ k : ℕ,
      (workerShare f n ncpu m dr k).getD j 0
        = ∑ i ∈ (Finset.range n).filter (fun i => i % ncpu = k), f i (dr * j) := by
    intro k
    rw [workerShare, range_map_getD _ _ _ hjm]
  calc ((List.range ncpu).map (fun k => (workerShare f n ncpu m dr k).getD j 0)).sum
      = ∑ k ∈ Finset.range ncpu,
          ∑ i ∈ (Finset.range n).filter (fun i => i % ncpu = k), f i (dr * j) := by
        rw [list_range_sum]
        exact Finset.sum_congr rfl (fun k _ => hshare k)
    _ = ∑ i ∈ Finset.range n, f i (dr * j) := by
        refine Finset.sum_fiberwise_of_maps_to ?_ _
        intro i _
        exact Finset.mem_range.mpr (Nat.mod_lt i hcpu)

/-- C7, witness for `parallel_calculator_matches_serial` with the notebook
worker count `ncpu = 2` on a small concrete structure. -/
theorem parallel_calculator_matches_serial_witness :
    createParallelCalculator (fun i r => ((i : ℚ) + 1) * r) 3 2 4 (1/2) List.map
      = serialCalculator (fun i r => ((i : ℚ) + 1) * r) 3 4 (1/2) :=
  parallel_calculator_matches_serial (fun i r => ((i : ℚ) + 1) * r) 3 2 4 (1/2)
    (by norm_num)

/-- C8.  `quatzero.__call__` is total and safe: with
`ssq = q1² + q2² + q3²` it returns `√(1 − ssq)` when `ssq < 1` and `0`
otherwise, its result always lies in `[0, 1]`, and whenever `ssq ≤ 1` the
quaternion completed with the returned component has unit norm. -/
theorem quatzero_total_safe (q1 q2 q3 : ℝ) :
    (q1 ^ 2 + q2 ^ 2 + q3 ^ 2 < 1 →
      quatzero q1 q2 q3 = Real.sqrt (1 - (q1 ^ 2 + q2 ^ 2 + q3 ^ 2))) ∧
    (1 ≤ q1 ^ 2 + q2 ^ 2 + q3 ^ 2 → quatzero q1 q2 q3 = 0) ∧
    0 ≤ quatzero q1 q2 q3 ∧
    quatzero q1 q2 q3 ≤ 1 ∧
    (q1 ^ 2 + q2 ^ 2 + q3 ^ 2 ≤ 1 →
      (quatzero q1 q2 q3) ^ 2 + q1 ^ 2 + q2 ^ 2 + q3 ^ 2 = 1) := by
  have hssq : 0 ≤ q1 ^ 2 + q2 ^ 2 + q3 ^ 2 := by positivity
  refine ⟨fun h => by rw [quatzero, if_pos h],
    fun h => by rw [quatzero, if_neg (not_lt.mpr h)], ?_, ?_, ?_⟩
  · rw [quatzero]
    split
    · exact Real.sqrt_nonneg _
    · exact le_refl 0
  · rw [quatzero]
    split
    · exact Real.sqrt_le_one.mpr (by linarith)
    · exact zero_le_one
  · intro h
    rw [quatzero]
    split
    · rw [Real.sq_sqrt (by linarith)]
      ring
    · rename_i hc
      have h1 : q1 ^ 2 + q2 ^ 2 + q3 ^ 2 = 1 := le_antisymm h (not_lt.mp hc)
      linear_combination h1

/-- C8, witness for `quatzero_total_safe` at `(3/5, 0, 0)`. -/
theorem quatzero_total_safe_witness :
    quatzero (3/5) 0 0 = Real.sqrt (1 - ((3/5 : ℝ) ^ 2 + 0 ^ 2 + 0 ^ 2)) ∧
    (quatzero (3/5) 0 0) ^ 2 + (3/5 : ℝ) ^ 2 + 0 ^ 2 + 0 ^ 2 = 1 :=
  ⟨(quatzero_total_safe (3/5) 0 0).1 (by norm_num),
   (quatzero_total_safe (3/5) 0 0).2.2.2.2 (by norm_num)⟩

/-- C9.  `convertCarbonChain` returns one atom per entry of `c.z`, and the
`k`-th atom is the snapshot taken by the `k`-th append: atom type `C`,
`uc11 = uc22 = uc33 = c.Uiso`, and `zc` equal to the `k`-th entry of
`c.z` — not `n` references to the final state of the single mutated atom. -/
theorem convertCarbonChain_snapshots (c : CarbonChain) :
    (convertCarbonChain c).length = c.z.length ∧
    ∀ (k : ℕ) (z : ℚ), c.z[k]? = some z →
      (convertCarbonChain c)[k]? = some
        ({ atomtype := "C", uc11 := c.Uiso, uc22 := c.Uiso, uc33 := c.Uiso,
           zc := z } : AdptAtom) := by
  rw [convertCarbonChain_eq_map]
  constructor
  · simp
  · intro k z hk
    simp [List.getElem?_map, hk]

/-- C9, witness for `convertCarbonChain_snapshots` on the chain
`Uiso = 1/250`, `z = [0, 1, 2]`, index `1`. -/
theorem convertCarbonChain_snapshots_witness :
    (convertCarbonChain ⟨1/250, [0, 1, 2]⟩).length = ([0, 1, 2] : List ℚ).length ∧
    (convertCarbonChain ⟨1/250, [0, 1, 2]⟩)[1]? = some
      ({ atomtype := "C", uc11 := 1/250, uc22 := 1/250, uc33 := 1/250,
         zc := 1 } : AdptAtom) :=
  ⟨(convertCarbonChain_snapshots ⟨1/250, [0, 1, 2]⟩).1,
   (convertCarbonChain_snapshots ⟨1/250, [0, 1, 2]⟩).2 1 1 rfl⟩

/-- C10.  `RectangularProfile` is consistent with its declared bounds and
has unit area: for `fwhm > 0`, `__call__(x, fwhm)` returns `1/fwhm` exactly
when `xboundlo(fwhm) < x < xboundhi(fwhm)` and `0` otherwise, so it is
nonzero exactly on the open interval between the bounds, and its height
`1/fwhm` times the support width `fwhm` equals `1`. -/
theorem rectangular_profile_bounds_area (x fwhm : ℚ) (h : 0 < fwhm) :
    (RectangularProfile.xboundlo fwhm < x ∧ x < RectangularProfile.xboundhi fwhm →
      RectangularProfile.call x fwhm = 1 / fwhm) ∧
    (¬ (RectangularProfile.xboundlo fwhm < x ∧ x < RectangularProfile.xboundhi fwhm) →
      RectangularProfile.call x fwhm = 0) ∧
    (RectangularProfile.call x fwhm ≠ 0 ↔
      RectangularProfile.xboundlo fwhm < x ∧ x < RectangularProfile.xboundhi fwhm) ∧
    1 / fwhm * fwhm = 1 := by
  have hb : (RectangularProfile.xboundlo fwhm < x ∧ x < RectangularProfile.xboundhi fwhm)
      ↔ (-fwhm / 2 < x ∧ x < fwhm / 2) := by
    rw [RectangularProfile.xboundlo, RectangularProfile.xboundhi]
    constructor <;> rintro ⟨h1, h2⟩ <;> constructor <;> nlinarith
  have hne : 1 / fwhm ≠ 0 := one_div_ne_zero (ne_of_gt h)
  refine ⟨?_, ?_, ?_, one_div_mul_cancel (ne_of_gt h)⟩
  · intro hx
    rw [RectangularProfile.call, if_pos (hb.mp hx)]
  · intro hx
    rw [RectangularProfile.call, if_neg (fun hc => hx (hb.mpr hc))]
  · constructor
    · intro hx
      by_contra hc
      rw [RectangularProfile.call, if_neg (fun hcc => hc (hb.mpr hcc))] at hx
      exact hx rfl
    · intro hx
      rw [RectangularProfile.call, if_pos (hb.mp hx)]
      exact hne

/-- C10, witness for `rectangular_profile_bounds_area` at `x = 0`,
`fwhm = 2`. -/
theorem rectangular_profile_bounds_area_witness :
    RectangularProfile.call 0 2 = 1 / 2 ∧ 1 / (2 : ℚ) * 2 = 1 :=
  ⟨(rectangular_profile_bounds_area 0 2 (by norm_num)).1
      (by norm_num [RectangularProfile.xboundlo, RectangularProfile.xboundhi]),
   (rectangular_profile_bounds_area 0 2 (by norm_num)).2.2.2⟩

end PDFSchool
